import Mathlib

/-!
A shallow embedding of `lms/djangoapps/courseware/user_state_client.py`
(`DjangoXBlockUserStateClient`), the Django-ORM-backed XBlock user state store.

Modelling conventions:
* A Python dict is an insertion-ordered association list `Dict V := List (String × V)`
  (`dinsert` reproduces Python's in-place-update-or-append assignment semantics).
* A `StudentModule` row stores `state : Option (Dict V)`: `none` models the SQL `NULL`
  state column and `some d` models the serialized JSON text `json.dumps d`; in
  particular `some []` is the `"{}"` tombstone encoding.  `json.loads`/`json.dumps`
  round-trip, so serialization is modelled as the identity on decoded dictionaries.
* The database is the list of rows, in primary-key (`id`) order; `order_by('id')`
  is therefore the identity, and Django's `Paginator` is list chunking (`pages`).
* Python generators are modelled as functions producing `Except Err (List _)`:
  the list of yielded values, or the exception the fully-consumed generator raises.
  (`delete_many` performs writes before a possible `TypeError`, so it returns the
  store together with an optional error instead.)
* The only concurrency signal the code reacts to is an `IntegrityError` raised by
  the storage layer during `get_or_create` (insert racing a concurrent creator) or
  during `save(force_update=True)`.  Whether the constraint fires is an input to the
  model: a schedule `UsageKey → WriteOutcome` consulted at the single write each
  batch member performs.  `noConflict` is the race-free schedule.
* The identity collaborator is reduced to the `anonymous : Bool` flag that guards
  `set_many` (anonymous users are never persisted); username resolution itself is
  an excluded external collaborator.
* Timestamps (`modified`, `created`) are `Nat`; log output is not modelled (it never
  affects control flow or return values).
-/

namespace UserStateClient

/-- Model of `xblock.fields.Scope`: the closed set of scope values.  Only `user_state`
is supported by this client. -/
inductive Scope
  | content
  | settings
  | user_state
  | preferences
  | user_info
  | user_state_summary
  | children
  | parent
deriving DecidableEq, Repr

/-- A `UsageKey`: block locator with its owning course (`context_key`,
the container key) and its `block_type`. -/
structure UsageKey where
  context : String
  blockId : String
  blockType : String
deriving DecidableEq, Repr

/-- A decoded JSON state dictionary: insertion-ordered association list from
field names to values, as a Python `dict` is. -/
abbrev Dict (V : Type) := List (String × V)

/-- Python dict assignment `d[k] = v`: replace the value in place if the key is
present, otherwise append the new binding at the end. -/
def dinsert {V : Type} (d : Dict V) (k : String) (v : V) : Dict V :=
  if d.any (fun p => p.1 == k) then
    d.map (fun p => if p.1 == k then (k, v) else p)
  else
    d ++ [(k, v)]

/-- Python `d.update(s)`: fold every binding of `s` into `d` by assignment. -/
def dictUpdate {V : Type} (d s : Dict V) : Dict V :=
  s.foldl (fun acc p => dinsert acc p.1 p.2) d

/-- Python `if k in d: del d[k]` — the guarded field removal used by `delete_many`. -/
def dictDel {V : Type} (d : Dict V) (k : String) : Dict V :=
  if d.any (fun p => p.1 == k) then d.filter (fun p => p.1 != k) else d

/-- The dict comprehension in `get_many`:
`{field: state[field] for field in fields if field in state}`. -/
def projectFields {V : Type} (st : Dict V) (fields : List String) : Dict V :=
  fields.foldl
    (fun acc f =>
      match st.lookup f with
      | some v => dinsert acc f v
      | none => acc)
    []

/-- A persisted `StudentModule` row.  `state = none` models the `NULL` column
("untouched"), `state = some []` models the `"{}"` tombstone. -/
structure StudentModule (V : Type) where
  username : String
  course_id : String
  module_state_key : UsageKey
  module_type : String
  state : Option (Dict V)
  modified : Nat
deriving DecidableEq, Repr

/-- The `XBlockUserState` namedtuple (read-model).  `state` is an `Option`
because `get_history` yields `None` for null/tombstoned history entries. -/
structure XBlockUserState (V : Type) where
  username : String
  block_key : UsageKey
  state : Option (Dict V)
  updated : Nat
  scope : Scope
deriving DecidableEq, Repr

/-- The exceptions surfaced by these operations:
`unsupportedScope` models `ValueError("Only Scope.user_state is supported")`,
`doesNotExist` models `DjangoXBlockUserStateClient.DoesNotExist`, and
`typeError` models the `TypeError` from `json.loads(None)`. -/
inductive Err
  | unsupportedScope
  | doesNotExist
  | typeError
deriving DecidableEq, Repr

/-- Outcome of the single row write a batch member performs: either it commits,
or the storage uniqueness constraint raises `IntegrityError`. -/
inductive WriteOutcome
  | ok
  | conflict
deriving DecidableEq, Repr

/-- The race-free schedule: no write ever hits `IntegrityError`. -/
def noConflict : UsageKey → WriteOutcome := fun _ => WriteOutcome.ok

/-- Byte-wise lexicographic comparison of character lists (code-point order). -/
def charListLe : List Char → List Char → Bool
  | [], _ => true
  | _ :: _, [] => false
  | a :: as, b :: bs =>
    if a.val < b.val then true
    else if b.val < a.val then false
    else charListLe as bs

/-- Lexicographic order on strings, used to model Python's
`sorted(block_keys, key=attrgetter('context_key'))`. -/
def strLe (a b : String) : Bool := charListLe a.data b.data

/-- Insertion step of insertion sort on strings. -/
def insertSorted (x : String) : List String → List String
  | [] => [x]
  | y :: ys => if strLe x y then x :: y :: ys else y :: insertSorted x ys

/-- Stable sort of strings in `strLe` order. -/
def sortStrings (l : List String) : List String := l.foldr insertSorted []

/-- The distinct context (course) keys of the requested block keys, in sorted
order: the group keys produced by `itertools.groupby` over the sorted list in
`_get_student_modules`. -/
def contextsOf (block_keys : List UsageKey) : List String :=
  (sortStrings (block_keys.map (fun k => k.context))).dedup

/-- The keys of a request falling in one context group. -/
def keysInContext (block_keys : List UsageKey) (ctx : String) : List UsageKey :=
  block_keys.filter (fun k => k.context == ctx)

/-- Model of `_get_student_modules`: group the requested keys by context key and, per
group, select the rows of this user whose `course_id` is the group's context
and whose `module_state_key` is among the group's keys.  Row order inside a
group is database order. -/
def getStudentModules {V : Type} (modules : List (StudentModule V)) (username : String)
    (block_keys : List UsageKey) : List (StudentModule V) :=
  (contextsOf block_keys).flatMap (fun ctx =>
    modules.filter (fun m =>
      m.username == username && m.course_id == ctx &&
        (keysInContext block_keys ctx).any (fun k => m.module_state_key == k)))

/-- The row-selection predicate of `get_or_create` in `set_many`
(`student=user, course_id=usage_key.context_key, module_state_key=usage_key`). -/
def matchesRow {V : Type} (m : StudentModule V) (username : String) (k : UsageKey) : Bool :=
  m.username == username && m.course_id == k.context && m.module_state_key == k

/-- The `get` half of `get_or_create`: the first row matching the unique key. -/
def findModule {V : Type} (modules : List (StudentModule V)) (username : String)
    (k : UsageKey) : Option (StudentModule V) :=
  modules.find? (fun m => matchesRow m username k)

/-- The freshly inserted row of `get_or_create`, with
`defaults={'state': json.dumps state, 'module_type': usage_key.block_type}`. -/
def newModule {V : Type} (username : String) (k : UsageKey) (s : Dict V)
    (now : Nat) : StudentModule V :=
  { username := username
    course_id := k.context
    module_state_key := k
    module_type := k.blockType
    state := some s
    modified := now }

/-- Model of `row.save(force_update=True)`: overwrite the state column (and the
`auto_now` modified timestamp) of the row with `target`'s unique key.  Never
inserts. -/
def saveRow {V : Type} (modules : List (StudentModule V)) (target : StudentModule V)
    (st : Option (Dict V)) (now : Nat) : List (StudentModule V) :=
  modules.map (fun m =>
    if m.username == target.username && m.course_id == target.course_id &&
        m.module_state_key == target.module_state_key then
      { m with state := st, modified := now }
    else m)

/-- The stored serialized state for a unique key, if a row exists:
`some none` is a `NULL` column, `some (some [])` the `"{}"` tombstone. -/
def storedState {V : Type} (modules : List (StudentModule V)) (username : String)
    (k : UsageKey) : Option (Option (Dict V)) :=
  (findModule modules username k).map (fun m => m.state)

/-- The per-pair loop of `set_many`.  For each `(usage_key, state)` pair:
`get_or_create`; if the insert raced and `IntegrityError` fired, log and
`return` — abandoning every remaining pair of the batch; if the row already
existed, decode it (`NULL` decodes as `{}`), merge with `current_state.update
(state)`, and `save(force_update=True)`, where an `IntegrityError` from the
update is logged and that pair alone is skipped. -/
def set_many_pairs {V : Type} (username : String) (sched : UsageKey → WriteOutcome)
    (now : Nat) : List (UsageKey × Dict V) → List (StudentModule V) → List (StudentModule V)
  | [], modules => modules
  | (k, s) :: rest, modules =>
    match findModule modules username k with
    | none =>
      match sched k with
      | WriteOutcome.conflict => modules
      | WriteOutcome.ok =>
        set_many_pairs username sched now rest (modules ++ [newModule username k s now])
    | some m =>
      let current : Dict V :=
        match m.state with
        | none => []
        | some d => d
      let merged := dictUpdate current s
      match sched k with
      | WriteOutcome.conflict => set_many_pairs username sched now rest modules
      | WriteOutcome.ok =>
        set_many_pairs username sched now rest (saveRow modules m (some merged) now)

/-- Model of `set_many`: scope gate, anonymous-user no-op guard, then the per-pair
write loop. -/
def set_many {V : Type} (username : String) (pairs : List (UsageKey × Dict V))
    (scope : Scope) (anonymous : Bool) (sched : UsageKey → WriteOutcome) (now : Nat)
    (modules : List (StudentModule V)) : Except Err (List (StudentModule V)) :=
  if scope ≠ Scope.user_state then Except.error Err.unsupportedScope
  else if anonymous then Except.ok modules
  else Except.ok (set_many_pairs username sched now pairs modules)

/-- Model of `set`: delegate to `set_many` with a one-pair mapping. -/
def set {V : Type} (username : String) (block_key : UsageKey) (s : Dict V)
    (scope : Scope) (anonymous : Bool) (sched : UsageKey → WriteOutcome) (now : Nat)
    (modules : List (StudentModule V)) : Except Err (List (StudentModule V)) :=
  set_many username [(block_key, s)] scope anonymous sched now modules

/-- Model of `get_many`: scope gate, then for each selected row skip `NULL` states,
decode, skip `== {}` tombstones, optionally project onto the requested
fields, and yield a read-model. -/
def get_many {V : Type} (username : String) (block_keys : List UsageKey)
    (scope : Scope) (fields : Option (List String))
    (modules : List (StudentModule V)) : Except Err (List (XBlockUserState V)) :=
  if scope ≠ Scope.user_state then Except.error Err.unsupportedScope
  else
    Except.ok ((getStudentModules modules username block_keys).filterMap (fun m =>
      match m.state with
      | none => none
      | some st =>
        if st.isEmpty then none
        else
          let st' :=
            match fields with
            | none => st
            | some fs => projectFields st fs
          some { username := username
                 block_key := m.module_state_key
                 state := some st'
                 updated := m.modified
                 scope := scope }))

/-- Model of `get`: first element of `get_many` over the one-key list; an exhausted
generator (`StopIteration`) becomes `DoesNotExist`; other exceptions
propagate. -/
def get {V : Type} (username : String) (block_key : UsageKey) (scope : Scope)
    (fields : Option (List String)) (modules : List (StudentModule V)) :
    Except Err (XBlockUserState V) :=
  match get_many username [block_key] scope fields modules with
  | Except.error e => Except.error e
  | Except.ok [] => Except.error Err.doesNotExist
  | Except.ok (x :: _) => Except.ok x

/-- The state written back for one row by `delete_many`: with no `fields`
argument the `"{}"` tombstone; with `fields`, decode (`json.loads(None)`
raises `TypeError`), remove each named field that is present, re-encode. -/
def deleteOne {V : Type} (fields : Option (List String)) (st : Option (Dict V)) :
    Except Err (Dict V) :=
  match fields with
  | none => Except.ok []
  | some fs =>
    match st with
    | none => Except.error Err.typeError
    | some d => Except.ok (fs.foldl (fun acc f => dictDel acc f) d)

/-- The write-back loop of `delete_many` over the selected rows.  Each
successful iteration saves its row before the next is examined, so on an
exception the store keeps the writes already performed. -/
def delete_loop {V : Type} (fields : Option (List String)) (now : Nat) :
    List (StudentModule V) → List (StudentModule V) →
      List (StudentModule V) × Option Err
  | [], modules => (modules, none)
  | m :: rest, modules =>
    match deleteOne fields m.state with
    | Except.error e => (modules, some e)
    | Except.ok d => delete_loop fields now rest (saveRow modules m (some d) now)

/-- Model of `delete_many`: scope gate, select the rows, rewrite each.  Returns the
resulting store and the exception, if one escaped. -/
def delete_many {V : Type} (username : String) (block_keys : List UsageKey)
    (scope : Scope) (fields : Option (List String)) (now : Nat)
    (modules : List (StudentModule V)) : List (StudentModule V) × Option Err :=
  if scope ≠ Scope.user_state then (modules, some Err.unsupportedScope)
  else delete_loop fields now (getStudentModules modules username block_keys) modules

/-- Model of `delete`: delegate to `delete_many` with a one-key list. -/
def delete {V : Type} (username : String) (block_key : UsageKey) (scope : Scope)
    (fields : Option (List String)) (now : Nat) (modules : List (StudentModule V)) :
    List (StudentModule V) × Option Err :=
  delete_many username [block_key] scope fields now modules

/-- A `BaseStudentModuleHistory` entry: the owning row's unique key, the
serialized state snapshot (nullable), and its creation time.  The history
table is listed most recent first, as `get_history` reads it. -/
structure HistEntry (V : Type) where
  username : String
  course_id : String
  module_state_key : UsageKey
  state : Option (Dict V)
  created : Nat
deriving DecidableEq, Repr

/-- Model of `BaseStudentModuleHistory.get_history(student_modules)`: the entries whose
owning row is among the given modules, in stored (reverse chronological)
order. -/
def historyFor {V : Type} (history : List (HistEntry V))
    (sms : List (StudentModule V)) : List (HistEntry V) :=
  history.filter (fun h => sms.any (fun m =>
    m.username == h.username && m.course_id == h.course_id &&
      m.module_state_key == h.module_state_key))

/-- Model of `get_history`: scope gate; `DoesNotExist` when no row matches the key or
when the matching rows have no history entries; otherwise yield one
read-model per entry, mapping a null or `"{}"` snapshot to a `None` state. -/
def get_history {V : Type} (username : String) (block_key : UsageKey) (scope : Scope)
    (modules : List (StudentModule V)) (history : List (HistEntry V)) :
    Except Err (List (XBlockUserState V)) :=
  if scope ≠ Scope.user_state then Except.error Err.unsupportedScope
  else
    let student_modules := getStudentModules modules username [block_key]
    if student_modules.isEmpty then Except.error Err.doesNotExist
    else
      let history_entries := historyFor history student_modules
      if history_entries.isEmpty then Except.error Err.doesNotExist
      else
        Except.ok (history_entries.map (fun h =>
          let st : Option (Dict V) :=
            match h.state with
            | none => none
            | some d => if d.isEmpty then none else some d
          { username := username
            block_key := h.module_state_key
            state := st
            updated := h.created
            scope := scope }))

/-- Django `Paginator` over a query result: successive chunks of `per` rows.
(`Paginator` hands an empty result back as one empty page; scanning it yields
nothing, exactly as the empty chunk list does.) -/
def pages {α : Type} (per : Nat) (l : List α) : List (List α) :=
  if hzero : per = 0 then [l]
  else
    match l with
    | [] => []
    | x :: xs => ((x :: xs).take per) :: pages per ((x :: xs).drop per)
termination_by l.length
decreasing_by
  simp only [List.length_drop, List.length_cons]
  omega

/-- The per-row body of the scan loops: `json.loads(sm.state)` (a `NULL`
state raises `TypeError`), skip `== {}` tombstones, yield a read-model with
the row's own username. -/
def scanRows {V : Type} (scope : Scope) :
    List (StudentModule V) → Except Err (List (XBlockUserState V))
  | [] => Except.ok []
  | m :: rest =>
    match m.state with
    | none => Except.error Err.typeError
    | some d =>
      if d.isEmpty then scanRows scope rest
      else
        match scanRows scope rest with
        | Except.error e => Except.error e
        | Except.ok l =>
          Except.ok ({ username := m.username
                       block_key := m.module_state_key
                       state := some d
                       updated := m.modified
                       scope := scope } :: l)

/-- The page loop of the scan entry points: scan each page in order. -/
def scanPages {V : Type} (scope : Scope) :
    List (List (StudentModule V)) → Except Err (List (XBlockUserState V))
  | [] => Except.ok []
  | p :: ps =>
    match scanRows scope p with
    | Except.error e => Except.error e
    | Except.ok l =>
      match scanPages scope ps with
      | Except.error e => Except.error e
      | Except.ok l2 => Except.ok (l ++ l2)

/-- The query of `iter_all_for_course`: all rows of the course in `id` order,
optionally restricted to one block type. -/
def courseResults {V : Type} (course_key : String) (block_type : Option String)
    (modules : List (StudentModule V)) : List (StudentModule V) :=
  let results := modules.filter (fun m => m.course_id == course_key)
  match block_type with
  | none => results
  | some bt => results.filter (fun m => m.module_type == bt)

/-- Model of `iter_all_for_course`: scope gate, then the paginated scan of the
course's rows. -/
def iter_all_for_course {V : Type} (course_key : String) (block_type : Option String)
    (scope : Scope) (per : Nat) (modules : List (StudentModule V)) :
    Except Err (List (XBlockUserState V)) :=
  if scope ≠ Scope.user_state then Except.error Err.unsupportedScope
  else scanPages scope (pages per (courseResults course_key block_type modules))

/-- Model of `iter_all_for_block`: scope gate, then the paginated scan of the rows
whose `module_state_key` is the given block key. -/
def iter_all_for_block {V : Type} (block_key : UsageKey) (scope : Scope) (per : Nat)
    (modules : List (StudentModule V)) : Except Err (List (XBlockUserState V)) :=
  if scope ≠ Scope.user_state then Except.error Err.unsupportedScope
  else
    scanPages scope
      (pages per (modules.filter (fun m => m.module_state_key == block_key)))

/-- What one scanned row contributes: nothing for a tombstone, one read-model
otherwise (`NULL` states are outside the scan's domain — they raise). -/
def rowView {V : Type} (scope : Scope) (m : StudentModule V) :
    Option (XBlockUserState V) :=
  match m.state with
  | none => none
  | some d =>
    if d.isEmpty then none
    else
      some { username := m.username
             block_key := m.module_state_key
             state := some d
             updated := m.modified
             scope := scope }

/-! ### Helper lemmas -/

theorem contextsOf_single (k : UsageKey) : contextsOf [k] = [k.context] := by
  simp [contextsOf, sortStrings, insertSorted, List.dedup_cons_of_not_mem]

theorem keysInContext_single (k : UsageKey) : keysInContext [k] k.context = [k] := by
  simp [keysInContext]

theorem getStudentModules_single {V : Type} (modules : List (StudentModule V))
    (u : String) (k : UsageKey) :
    getStudentModules modules u [k] = modules.filter (fun m => matchesRow m u k) := by
  simp only [getStudentModules, contextsOf_single, keysInContext_single,
    List.flatMap_cons, List.flatMap_nil, List.append_nil, List.any_cons,
    List.any_nil, Bool.or_false]
  rfl

theorem filter_matchesRow_nil {V : Type} {modules : List (StudentModule V)}
    {u : String} {k : UsageKey} (h : ∀ m ∈ modules, matchesRow m u k = false) :
    modules.filter (fun m => matchesRow m u k) = [] := by
  simp only [List.filter_eq_nil_iff]
  intro m hm
  simp [h m hm]

theorem findModule_eq_none {V : Type} {modules : List (StudentModule V)}
    {u : String} {k : UsageKey} (h : ∀ m ∈ modules, matchesRow m u k = false) :
    findModule modules u k = none := by
  simp only [findModule, List.find?_eq_none]
  intro m hm
  simp [h m hm]

theorem matchesRow_newModule {V : Type} (u : String) (k : UsageKey) (s : Dict V)
    (now : Nat) : matchesRow (newModule u k s now) u k = true := by
  simp [matchesRow, newModule]

theorem saveRow_newModule_pred {V : Type} (u : String) (k : UsageKey) (s : Dict V)
    (now : Nat) (m : StudentModule V) :
    (m.username == (newModule u k s now).username &&
      m.course_id == (newModule u k s now).course_id &&
      m.module_state_key == (newModule u k s now).module_state_key) =
      matchesRow m u k := by
  simp [matchesRow, newModule]

theorem saveRow_append {V : Type} (l1 l2 : List (StudentModule V))
    (t : StudentModule V) (st : Option (Dict V)) (now : Nat) :
    saveRow (l1 ++ l2) t st now = saveRow l1 t st now ++ saveRow l2 t st now := by
  simp [saveRow]

theorem saveRow_not_matched {V : Type} {modules : List (StudentModule V)}
    {t : StudentModule V} {st : Option (Dict V)} {now : Nat}
    (h : ∀ m ∈ modules,
      (m.username == t.username && m.course_id == t.course_id &&
        m.module_state_key == t.module_state_key) = false) :
    saveRow modules t st now = modules := by
  unfold saveRow
  conv_rhs => rw [← List.map_id modules]
  apply List.map_congr_left
  intro m hm
  simp [h m hm]

/-! ### Claims -/

/-- C4: every public operation (get/get_many, set/set_many, delete/delete_many,
get_history, iter_all_for_block, iter_all_for_course), called with any scope
other than `Scope.user_state`, fails with the unsupported-scope condition
(the `ValueError` raised by the scope gate) rather than silently ignoring the
scope or proceeding. -/
theorem C4_unsupported_scope_all_ops {V : Type} (scope : Scope)
    (h : scope ≠ Scope.user_state) (u : String) (k : UsageKey)
    (ks : List UsageKey) (fields : Option (List String)) (sdict : Dict V)
    (pairs : List (UsageKey × Dict V)) (anon : Bool)
    (sched : UsageKey → WriteOutcome) (now : Nat)
    (modules : List (StudentModule V)) (history : List (HistEntry V))
    (ck : String) (bt : Option String) (per : Nat) :
    get u k scope fields modules = Except.error Err.unsupportedScope ∧
    get_many u ks scope fields modules = Except.error Err.unsupportedScope ∧
    set u k sdict scope anon sched now modules = Except.error Err.unsupportedScope ∧
    set_many u pairs scope anon sched now modules = Except.error Err.unsupportedScope ∧
    delete u k scope fields now modules = (modules, some Err.unsupportedScope) ∧
    delete_many u ks scope fields now modules = (modules, some Err.unsupportedScope) ∧
    get_history u k scope modules history = Except.error Err.unsupportedScope ∧
    iter_all_for_block k scope per modules = Except.error Err.unsupportedScope ∧
    iter_all_for_course ck bt scope per modules = Except.error Err.unsupportedScope := by
  simp [get, get_many, set, set_many, delete, delete_many, get_history,
    iter_all_for_block, iter_all_for_course, h]

/-- C4 witness: concrete instance at `Scope.settings`. -/
theorem C4_unsupported_scope_all_ops_witness :
    get "u" ⟨"c1", "b1", "problem"⟩ Scope.settings none ([] : List (StudentModule Int)) =
      Except.error Err.unsupportedScope ∧
    get_many "u" [] Scope.settings none ([] : List (StudentModule Int)) =
      Except.error Err.unsupportedScope ∧
    set "u" ⟨"c1", "b1", "problem"⟩ [] Scope.settings false noConflict 0
      ([] : List (StudentModule Int)) = Except.error Err.unsupportedScope ∧
    set_many "u" [] Scope.settings false noConflict 0 ([] : List (StudentModule Int)) =
      Except.error Err.unsupportedScope ∧
    delete "u" ⟨"c1", "b1", "problem"⟩ Scope.settings none 0
      ([] : List (StudentModule Int)) = ([], some Err.unsupportedScope) ∧
    delete_many "u" [] Scope.settings none 0 ([] : List (StudentModule Int)) =
      ([], some Err.unsupportedScope) ∧
    get_history "u" ⟨"c1", "b1", "problem"⟩ Scope.settings
      ([] : List (StudentModule Int)) [] = Except.error Err.unsupportedScope ∧
    iter_all_for_block ⟨"c1", "b1", "problem"⟩ Scope.settings 2
      ([] : List (StudentModule Int)) = Except.error Err.unsupportedScope ∧
    iter_all_for_course "c1" none Scope.settings 2 ([] : List (StudentModule Int)) =
      Except.error Err.unsupportedScope :=
  C4_unsupported_scope_all_ops Scope.settings (by decide) "u" ⟨"c1", "b1", "problem"⟩
    [] none [] [] false noConflict 0 [] [] "c1" none 2

theorem foldl_project_acc {V : Type} (fs : List String) (st : Dict V)
    (acc : Dict V) (h : ∀ f ∈ fs, st.lookup f = none) :
    fs.foldl
      (fun acc f =>
        match st.lookup f with
        | some v => dinsert acc f v
        | none => acc)
      acc = acc := by
  induction fs generalizing acc with
  | nil => rfl
  | cons f rest ih =>
    simp only [List.foldl_cons, h f (List.mem_cons_self _ _)]
    exact ih acc (fun g hg => h g (List.mem_cons_of_mem _ hg))

theorem projectFields_eq_nil {V : Type} {st : Dict V} {fs : List String}
    (h : ∀ f ∈ fs, st.lookup f = none) : projectFields st fs = [] :=
  foldl_project_acc fs st [] h

/-- C9: `get`/`get_many` can yield a read-model with an empty fields mapping:
when the stored state is non-empty (so the tombstone check, which runs before
field projection, passes) but the requested `fields` share no names with the
stored fields, the record is yielded with an empty dict rather than omitted
or rejected with `DoesNotExist`. -/
theorem C9_empty_projection_yielded {V : Type} (u : String) (k : UsageKey)
    (bt : String) (d : Dict V) (fs : List String) (t : Nat)
    (hne : d ≠ []) (hdisj : ∀ f ∈ fs, d.lookup f = none) :
    get u k Scope.user_state (some fs)
        [{ username := u, course_id := k.context, module_state_key := k,
           module_type := bt, state := some d, modified := t }] =
      Except.ok { username := u, block_key := k, state := some ([] : Dict V),
                  updated := t, scope := Scope.user_state } := by
  cases d with
  | nil => exact absurd rfl hne
  | cons p ds =>
    simp [get, get_many, getStudentModules_single, matchesRow,
      projectFields_eq_nil hdisj]

/-- C9 witness: stored state `{"a": 1}`, requested fields `["z"]`. -/
theorem C9_empty_projection_yielded_witness :
    get "u" ⟨"c1", "b1", "problem"⟩ Scope.user_state (some ["z"])
        [{ username := "u", course_id := "c1",
           module_state_key := ⟨"c1", "b1", "problem"⟩,
           module_type := "problem", state := some [("a", (1 : Int))],
           modified := 7 }] =
      Except.ok { username := "u", block_key := ⟨"c1", "b1", "problem"⟩,
                  state := some ([] : Dict Int), updated := 7,
                  scope := Scope.user_state } :=
  C9_empty_projection_yielded "u" ⟨"c1", "b1", "problem"⟩ "problem"
    [("a", (1 : Int))] ["z"] 7 (by decide) (by decide)

theorem newModule_state {V : Type} (u : String) (k : UsageKey) (s : Dict V)
    (now : Nat) : (newModule u k s now).state = some s := rfl

theorem findModule_append {V : Type} {l1 : List (StudentModule V)}
    (l2 : List (StudentModule V)) {u : String} {k : UsageKey}
    (h : ∀ m ∈ l1, matchesRow m u k = false) :
    findModule (l1 ++ l2) u k = findModule l2 u k := by
  induction l1 with
  | nil => rfl
  | cons m rest ih =>
    have hm := h m (List.mem_cons_self _ _)
    simp only [List.cons_append, findModule, List.find?_cons, hm]
    exact ih (fun x hx => h x (List.mem_cons_of_mem _ hx))

/-- C10: for a key with no existing record, `set` with an empty state mapping
creates a row whose serialized state is the `"{}"` tombstone encoding
(`some []`), so a subsequent `get` fails with `DoesNotExist` even though the
`set` succeeded: creating state from an empty mapping is indistinguishable
from a full delete to every reader. -/
theorem C10_set_empty_creates_tombstone {V : Type} (u : String) (k : UsageKey)
    (now : Nat) (modules : List (StudentModule V))
    (hno : ∀ m ∈ modules, matchesRow m u k = false) :
    set u k [] Scope.user_state false noConflict now modules =
      Except.ok (modules ++ [newModule u k [] now]) ∧
    storedState (modules ++ [newModule u k [] now]) u k = some (some []) ∧
    get u k Scope.user_state none (modules ++ [newModule u k [] now]) =
      Except.error Err.doesNotExist := by
  refine ⟨?_, ?_, ?_⟩
  · simp [set, set_many, set_many_pairs, findModule_eq_none hno, noConflict]
  · rw [storedState, findModule_append _ hno]
    simp [findModule, List.find?_cons, matchesRow_newModule, newModule_state]
  · simp [get, get_many, getStudentModules_single, List.filter_append,
      filter_matchesRow_nil hno, matchesRow_newModule, newModule_state]

/-- C10 witness: a fresh key in an empty store. -/
theorem C10_set_empty_creates_tombstone_witness :
    set "u" ⟨"c1", "b1", "problem"⟩ [] Scope.user_state false noConflict 5
        ([] : List (StudentModule Int)) =
      Except.ok [newModule "u" ⟨"c1", "b1", "problem"⟩ [] 5] ∧
    storedState [newModule "u" ⟨"c1", "b1", "problem"⟩ ([] : Dict Int) 5] "u"
        ⟨"c1", "b1", "problem"⟩ = some (some []) ∧
    get "u" ⟨"c1", "b1", "problem"⟩ Scope.user_state none
        [newModule "u" ⟨"c1", "b1", "problem"⟩ ([] : Dict Int) 5] =
      Except.error Err.doesNotExist := by
  have h := C10_set_empty_creates_tombstone (V := Int) "u" ⟨"c1", "b1", "problem"⟩ 5 []
    (by intro m hm; cases hm)
  simpa using h

/-- C1 counterexample: `set_many` over `[K1, K2]` on an empty store, where
K1's insert hits the uniqueness constraint.  The call returns normally with
the store unchanged (empty): contrary to the claim, K2's state is NOT
persisted by the call — `set_many` executes `return` inside the
`except IntegrityError` handler of `get_or_create`, abandoning the whole
remaining batch. -/
theorem C1_counterexample_k2_not_persisted :
    Except.map (fun l => storedState l "u" ⟨"c1", "b2", "problem"⟩)
        (set_many "u"
          [(⟨"c1", "b1", "problem"⟩, [("a", (1 : Int))]),
           (⟨"c1", "b2", "problem"⟩, [("b", (2 : Int))])]
          Scope.user_state false
          (fun kk => if kk = ⟨"c1", "b1", "problem"⟩ then WriteOutcome.conflict
                     else WriteOutcome.ok)
          0 []) =
      Except.ok none := by
  rfl

/-- C1 (amended): if the first pair's record creation hits the uniqueness
constraint (`IntegrityError` from `get_or_create`), the violation is
non-fatal to the caller — the call still returns normally — but the entire
remaining batch is abandoned: the store is returned unchanged, so no later
key of the same call (such as K2) is persisted. -/
theorem C1_create_conflict_abandons_batch {V : Type} (u : String) (k1 : UsageKey)
    (s1 : Dict V) (rest : List (UsageKey × Dict V)) (sched : UsageKey → WriteOutcome)
    (now : Nat) (modules : List (StudentModule V))
    (hno : ∀ m ∈ modules, matchesRow m u k1 = false)
    (hconf : sched k1 = WriteOutcome.conflict) :
    set_many u ((k1, s1) :: rest) Scope.user_state false sched now modules =
      Except.ok modules := by
  simp [set_many, set_many_pairs, findModule_eq_none hno, hconf]

/-- C1 witness: the amended theorem applied at the counterexample's input. -/
theorem C1_create_conflict_abandons_batch_witness :
    set_many "u"
        [(⟨"c1", "b1", "problem"⟩, [("a", (1 : Int))]),
         (⟨"c1", "b2", "problem"⟩, [("b", (2 : Int))])]
        Scope.user_state false
        (fun kk => if kk = ⟨"c1", "b1", "problem"⟩ then WriteOutcome.conflict
                   else WriteOutcome.ok)
        0 [] =
      Except.ok [] :=
  C1_create_conflict_abandons_batch "u" ⟨"c1", "b1", "problem"⟩ [("a", (1 : Int))]
    [(⟨"c1", "b2", "problem"⟩, [("b", (2 : Int))])]
    (fun kk => if kk = ⟨"c1", "b1", "problem"⟩ then WriteOutcome.conflict
               else WriteOutcome.ok)
    0 [] (by intro m hm; cases hm) (by decide)

/-- C2: after `set(K, {"a": v})` then `delete(K)` with no fields argument, the
stored state is the `"{}"` tombstone encoding (`some []`) and a subsequent
`get(K)` fails with `DoesNotExist` — the tombstoned key is externally
indistinguishable from a never-written key. -/
theorem C2_full_delete_tombstone_notfound {V : Type} (u : String) (k : UsageKey)
    (v : V) (now1 now2 : Nat) (modules : List (StudentModule V))
    (hno : ∀ m ∈ modules, matchesRow m u k = false) :
    ∃ m1 m2 : List (StudentModule V),
      set u k [("a", v)] Scope.user_state false noConflict now1 modules =
        Except.ok m1 ∧
      delete u k Scope.user_state none now2 m1 = (m2, none) ∧
      storedState m2 u k = some (some []) ∧
      get u k Scope.user_state none m2 = Except.error Err.doesNotExist := by
  have hsave : saveRow modules (newModule u k [("a", v)] now1) (some []) now2 =
      modules :=
    saveRow_not_matched (fun m hm => by rw [saveRow_newModule_pred]; exact hno m hm)
  refine ⟨modules ++ [newModule u k [("a", v)] now1],
          modules ++ [newModule u k [] now2], ?_, ?_, ?_, ?_⟩
  · simp [set, set_many, set_many_pairs, findModule_eq_none hno, noConflict]
  · simp only [delete, delete_many, getStudentModules_single, List.filter_append,
      filter_matchesRow_nil hno, List.nil_append, List.filter_cons,
      matchesRow_newModule, List.filter_nil, if_true, delete_loop, deleteOne,
      newModule_state, saveRow_append, hsave]
    simp [saveRow, newModule, delete_loop]
  · rw [storedState, findModule_append _ hno]
    simp [findModule, List.find?_cons, matchesRow_newModule, newModule_state]
  · simp [get, get_many, getStudentModules_single, List.filter_append,
      filter_matchesRow_nil hno, matchesRow_newModule, newModule_state]

/-- C2 witness: a fresh key in an empty store. -/
theorem C2_full_delete_tombstone_notfound_witness :
    ∃ m1 m2 : List (StudentModule Int),
      set "u" ⟨"c1", "b1", "problem"⟩ [("a", (1 : Int))] Scope.user_state false
        noConflict 1 [] = Except.ok m1 ∧
      delete "u" ⟨"c1", "b1", "problem"⟩ Scope.user_state none 2 m1 = (m2, none) ∧
      storedState m2 "u" ⟨"c1", "b1", "problem"⟩ = some (some []) ∧
      get "u" ⟨"c1", "b1", "problem"⟩ Scope.user_state none m2 =
        Except.error Err.doesNotExist :=
  C2_full_delete_tombstone_notfound "u" ⟨"c1", "b1", "problem"⟩ 1 1 2 []
    (by intro m hm; cases hm)

theorem lookup_map_replace {V : Type} (d : Dict V) (g : String) (v : V)
    {f : String} (h : (f == g) = false) :
    (d.map (fun p => if p.1 == g then (g, v) else p)).lookup f = d.lookup f := by
  induction d with
  | nil => rfl
  | cons p rest ih =>
    obtain ⟨pk, pv⟩ := p
    simp only [List.map_cons]
    by_cases hpg : (pk == g) = true
    · rw [if_pos hpg]
      have hpk : pk = g := eq_of_beq hpg
      subst hpk
      simp only [List.lookup, h, ih]
    · rw [if_neg hpg]
      simp only [List.lookup, ih]

theorem lookup_append_single {V : Type} (d : Dict V) (g : String) (v : V)
    {f : String} (h : (f == g) = false) :
    (d ++ [(g, v)]).lookup f = d.lookup f := by
  induction d with
  | nil => simp [List.lookup, h]
  | cons p rest ih =>
    obtain ⟨pk, pv⟩ := p
    cases hfp : (f == pk) with
    | true => simp [List.lookup, hfp]
    | false => simp [List.lookup, hfp, ih]

theorem lookup_dinsert_ne {V : Type} (d : Dict V) (g : String) (v : V)
    {f : String} (h : (f == g) = false) :
    (dinsert d g v).lookup f = d.lookup f := by
  unfold dinsert
  by_cases hany : (d.any (fun p => p.1 == g)) = true
  · simp only [hany, if_true]
    exact lookup_map_replace d g v h
  · simp only [Bool.not_eq_true] at hany
    simp only [hany, Bool.false_eq_true, if_false]
    exact lookup_append_single d g v h

theorem lookup_dictUpdate_absent {V : Type} (s : Dict V) :
    ∀ (d : Dict V) (f : String), s.lookup f = none →
      (dictUpdate d s).lookup f = d.lookup f := by
  induction s with
  | nil => intro d f _; rfl
  | cons p rest ih =>
    intro d f habs
    obtain ⟨g, w⟩ := p
    have hfg : (f == g) = false := by
      cases hfg : (f == g) with
      | true => simp [List.lookup, hfg] at habs
      | false => rfl
    have hrest : rest.lookup f = none := by
      simpa [List.lookup, hfg] using habs
    simp only [dictUpdate, List.foldl_cons]
    rw [show rest.foldl (fun acc p => dinsert acc p.1 p.2) (dinsert d g w) =
      dictUpdate (dinsert d g w) rest from rfl]
    rw [ih (dinsert d g w) f hrest]
    exact lookup_dinsert_ne d g w hfg

/-- C3: `set` merges the given mapping into the existing stored state
field-by-field (`existing.update(state)`) and never drops stored fields
absent from the new mapping: after `set(K, {"a": va})` then `set(K, {"b":
vb})`, `get(K)` returns both fields; and in general a field absent from the
new mapping keeps its stored value across the merge. -/
theorem C3_set_merges_not_replaces {V : Type} (u : String) (k : UsageKey)
    (va vb : V) (now1 now2 : Nat) (modules : List (StudentModule V))
    (hno : ∀ m ∈ modules, matchesRow m u k = false) :
    (∃ m1 m2 : List (StudentModule V),
      set u k [("a", va)] Scope.user_state false noConflict now1 modules =
        Except.ok m1 ∧
      set u k [("b", vb)] Scope.user_state false noConflict now2 m1 =
        Except.ok m2 ∧
      get u k Scope.user_state none m2 =
        Except.ok { username := u, block_key := k,
                    state := some [("a", va), ("b", vb)], updated := now2,
                    scope := Scope.user_state }) ∧
    (∀ (d s : Dict V) (f : String), s.lookup f = none →
      (dictUpdate d s).lookup f = d.lookup f) := by
  have hab : (("a" : String) == "b") = false := by decide
  have hsave : saveRow modules (newModule u k [("a", va)] now1)
      (some (dictUpdate [("a", va)] [("b", vb)])) now2 = modules :=
    saveRow_not_matched (fun m hm => by rw [saveRow_newModule_pred]; exact hno m hm)
  have hmerge : dictUpdate [("a", va)] [("b", vb)] = [("a", va), ("b", vb)] := by
    simp [dictUpdate, dinsert, hab]
  constructor
  · refine ⟨modules ++ [newModule u k [("a", va)] now1],
            modules ++ [newModule u k [("a", va), ("b", vb)] now2], ?_, ?_, ?_⟩
    · simp [set, set_many, set_many_pairs, findModule_eq_none hno, noConflict]
    · rw [set, set_many]
      simp only [ne_eq, not_true_eq_false, if_false, Bool.false_eq_true,
        ite_false, if_neg]
      rw [set_many_pairs, findModule_append _ hno]
      simp only [findModule, List.find?_cons, matchesRow_newModule,
        newModule_state, noConflict, saveRow_append, hsave]
      rw [set_many_pairs]
      simp [saveRow, newModule, hmerge]
    · simp only [get, get_many, getStudentModules_single, List.filter_append,
        filter_matchesRow_nil hno, List.nil_append, List.filter_cons,
        matchesRow_newModule, if_true, List.filter_nil, ne_eq,
        not_true_eq_false, if_false, List.filterMap_cons, newModule_state,
        List.isEmpty_cons, List.filterMap_nil]
      exact congrArg Except.ok rfl
  · intro d s f habs
    exact lookup_dictUpdate_absent s d f habs

/-- C3 witness: fresh key, `{"a":1}` then `{"b":2}`, in an empty store. -/
theorem C3_set_merges_not_replaces_witness :
    (∃ m1 m2 : List (StudentModule Int),
      set "u" ⟨"c1", "b1", "problem"⟩ [("a", (1 : Int))] Scope.user_state false
        noConflict 1 [] = Except.ok m1 ∧
      set "u" ⟨"c1", "b1", "problem"⟩ [("b", (2 : Int))] Scope.user_state false
        noConflict 2 m1 = Except.ok m2 ∧
      get "u" ⟨"c1", "b1", "problem"⟩ Scope.user_state none m2 =
        Except.ok { username := "u", block_key := ⟨"c1", "b1", "problem"⟩,
                    state := some [("a", (1 : Int)), ("b", (2 : Int))],
                    updated := 2, scope := Scope.user_state }) ∧
    (∀ (d s : Dict Int) (f : String), s.lookup f = none →
      (dictUpdate d s).lookup f = d.lookup f) :=
  C3_set_merges_not_replaces "u" ⟨"c1", "b1", "problem"⟩ 1 2 1 2 []
    (by intro m hm; cases hm)

/-- C5: `delete` with a fields list removes exactly the named fields from the
decoded stored mapping, re-serializes and persists, leaving other fields
unchanged: after `set(K, {"a": va, "b": vb})` then `delete(K, fields=["a"])`,
`get(K)` returns exactly `{"b": vb}`. -/
theorem C5_field_delete_removes_only_named {V : Type} (u : String) (k : UsageKey)
    (va vb : V) (now1 now2 : Nat) (modules : List (StudentModule V))
    (hno : ∀ m ∈ modules, matchesRow m u k = false) :
    ∃ m1 m2 : List (StudentModule V),
      set u k [("a", va), ("b", vb)] Scope.user_state false noConflict now1
        modules = Except.ok m1 ∧
      delete u k Scope.user_state (some ["a"]) now2 m1 = (m2, none) ∧
      get u k Scope.user_state none m2 =
        Except.ok { username := u, block_key := k, state := some [("b", vb)],
                    updated := now2, scope := Scope.user_state } := by
  have hba : (("b" : String) == "a") = false := by decide
  have hsave : saveRow modules (newModule u k [("a", va), ("b", vb)] now1)
      (some [("b", vb)]) now2 = modules :=
    saveRow_not_matched (fun m hm => by rw [saveRow_newModule_pred]; exact hno m hm)
  have hdel : deleteOne (some ["a"]) (some [("a", va), ("b", vb)]) =
      Except.ok [("b", vb)] := by
    simp [deleteOne, dictDel, hba]
  refine ⟨modules ++ [newModule u k [("a", va), ("b", vb)] now1],
          modules ++ [newModule u k [("b", vb)] now2], ?_, ?_, ?_⟩
  · simp [set, set_many, set_many_pairs, findModule_eq_none hno, noConflict]
  · simp only [delete, delete_many, getStudentModules_single, List.filter_append,
      filter_matchesRow_nil hno, List.nil_append, List.filter_cons,
      matchesRow_newModule, List.filter_nil, if_true, delete_loop,
      newModule_state, hdel, saveRow_append, hsave]
    simp [saveRow, newModule, delete_loop]
  · simp only [get, get_many, getStudentModules_single, List.filter_append,
      filter_matchesRow_nil hno, List.nil_append, List.filter_cons,
      matchesRow_newModule, if_true, List.filter_nil, ne_eq,
      not_true_eq_false, if_false, List.filterMap_cons, newModule_state,
      List.isEmpty_cons, List.filterMap_nil]
    exact congrArg Except.ok rfl

/-- C5 witness: fresh key, `{"a":1,"b":2}` then `delete(fields=["a"])`. -/
theorem C5_field_delete_removes_only_named_witness :
    ∃ m1 m2 : List (StudentModule Int),
      set "u" ⟨"c1", "b1", "problem"⟩ [("a", (1 : Int)), ("b", (2 : Int))]
        Scope.user_state false noConflict 1 [] = Except.ok m1 ∧
      delete "u" ⟨"c1", "b1", "problem"⟩ Scope.user_state (some ["a"]) 2 m1 =
        (m2, none) ∧
      get "u" ⟨"c1", "b1", "problem"⟩ Scope.user_state none m2 =
        Except.ok { username := "u", block_key := ⟨"c1", "b1", "problem"⟩,
                    state := some [("b", (2 : Int))], updated := 2,
                    scope := Scope.user_state } :=
  C5_field_delete_removes_only_named "u" ⟨"c1", "b1", "problem"⟩ 1 2 1 2 []
    (by intro m hm; cases hm)

/-- C6: `get_history` fails with `DoesNotExist` exactly when no row exists for
(username, key), or when the matching rows have zero history entries; when it
succeeds its sequence is never empty. -/
theorem C6_get_history_notfound_iff {V : Type} (u : String) (k : UsageKey)
    (modules : List (StudentModule V)) (history : List (HistEntry V)) :
    (get_history u k Scope.user_state modules history =
        Except.error Err.doesNotExist ↔
      getStudentModules modules u [k] = [] ∨
        historyFor history (getStudentModules modules u [k]) = []) ∧
    (∀ l, get_history u k Scope.user_state modules history = Except.ok l →
      l ≠ []) := by
  rw [get_history]
  have hgate : ¬(Scope.user_state ≠ Scope.user_state) := fun h => h rfl
  rw [if_neg hgate]
  by_cases h1 : (getStudentModules modules u [k]).isEmpty = true
  · have h1' : getStudentModules modules u [k] = [] := by
      simpa [List.isEmpty_iff] using h1
    simp [h1, h1']
  · have h1' : ¬getStudentModules modules u [k] = [] := by
      simpa [List.isEmpty_iff] using h1
    by_cases h2 : (historyFor history (getStudentModules modules u [k])).isEmpty = true
    · have h2' : historyFor history (getStudentModules modules u [k]) = [] := by
        simpa [List.isEmpty_iff] using h2
      simp [h1, h2, h2']
    · have h2' : ¬historyFor history (getStudentModules modules u [k]) = [] := by
        simpa [List.isEmpty_iff] using h2
      simp only [h1, Bool.false_eq_true, if_false, h2]
      constructor
      · simp [h1', h2']
      · intro l hl
        have hmap := Except.ok.inj hl
        intro hnil
        rw [hnil] at hmap
        exact h2' (by simpa using hmap.symm)

/-- C6 witness: one row with one history entry — neither emptiness holds and
the produced sequence is non-empty. -/
theorem C6_get_history_notfound_iff_witness :
    (get_history "u" ⟨"c1", "b1", "problem"⟩ Scope.user_state
        [{ username := "u", course_id := "c1",
           module_state_key := ⟨"c1", "b1", "problem"⟩,
           module_type := "problem", state := some [("a", (1 : Int))],
           modified := 3 }]
        [{ username := "u", course_id := "c1",
           module_state_key := ⟨"c1", "b1", "problem"⟩,
           state := some [("a", (1 : Int))], created := 3 }] =
        Except.error Err.doesNotExist ↔
      getStudentModules
          [{ username := "u", course_id := "c1",
             module_state_key := ⟨"c1", "b1", "problem"⟩,
             module_type := "problem", state := some [("a", (1 : Int))],
             modified := 3 }] "u" [⟨"c1", "b1", "problem"⟩] = [] ∨
        historyFor
          [{ username := "u", course_id := "c1",
             module_state_key := ⟨"c1", "b1", "problem"⟩,
             state := some [("a", (1 : Int))], created := 3 }]
          (getStudentModules
            [{ username := "u", course_id := "c1",
               module_state_key := ⟨"c1", "b1", "problem"⟩,
               module_type := "problem", state := some [("a", (1 : Int))],
               modified := 3 }] "u" [⟨"c1", "b1", "problem"⟩]) = []) ∧
    (∀ l, get_history "u" ⟨"c1", "b1", "problem"⟩ Scope.user_state
        [{ username := "u", course_id := "c1",
           module_state_key := ⟨"c1", "b1", "problem"⟩,
           module_type := "problem", state := some [("a", (1 : Int))],
           modified := 3 }]
        [{ username := "u", course_id := "c1",
           module_state_key := ⟨"c1", "b1", "problem"⟩,
           state := some [("a", (1 : Int))], created := 3 }] = Except.ok l →
      l ≠ []) :=
  C6_get_history_notfound_iff "u" ⟨"c1", "b1", "problem"⟩
    [{ username := "u", course_id := "c1",
       module_state_key := ⟨"c1", "b1", "problem"⟩,
       module_type := "problem", state := some [("a", (1 : Int))],
       modified := 3 }]
    [{ username := "u", course_id := "c1",
       module_state_key := ⟨"c1", "b1", "problem"⟩,
       state := some [("a", (1 : Int))], created := 3 }]

theorem pages_flatten_aux {α : Type} (per : Nat) (hper : per ≠ 0) :
    ∀ (n : Nat) (l : List α), l.length ≤ n → (pages per l).flatten = l := by
  intro n
  induction n with
  | zero =>
    intro l hl
    have hnil : l = [] := List.length_eq_zero.mp (Nat.le_zero.mp hl)
    subst hnil
    rw [pages.eq_def]
    simp [hper]
  | succ n ih =>
    intro l hl
    rw [pages.eq_def]
    simp only [hper, dite_false]
    cases l with
    | nil => rfl
    | cons x xs =>
      simp only [List.flatten_cons]
      have hdrop : ((x :: xs).drop per).length ≤ n := by
        simp only [List.length_cons] at hl
        simp only [List.length_drop, List.length_cons]
        omega
      rw [ih _ hdrop]
      exact List.take_append_drop per (x :: xs)

theorem pages_flatten {α : Type} (per : Nat) (l : List α) (hper : per ≠ 0) :
    (pages per l).flatten = l :=
  pages_flatten_aux per hper l.length l le_rfl

theorem scanRows_append {V : Type} (scope : Scope) (a b : List (StudentModule V)) :
    scanRows scope (a ++ b) =
      match scanRows scope a with
      | Except.error e => Except.error e
      | Except.ok l1 =>
        match scanRows scope b with
        | Except.error e => Except.error e
        | Except.ok l2 => Except.ok (l1 ++ l2) := by
  induction a with
  | nil =>
    cases h : scanRows scope b <;> simp [scanRows, h]
  | cons m rest ih =>
    cases hst : m.state with
    | none => simp [scanRows, hst]
    | some d =>
      by_cases hd : d.isEmpty = true
      · simp only [List.cons_append, scanRows, hst, hd, if_true,
          List.append_eq, ih]
      · simp only [List.cons_append, scanRows, hst, hd, Bool.false_eq_true,
          if_false, List.append_eq, ih]
        cases scanRows scope rest <;> cases scanRows scope b <;> try simp

theorem scanPages_eq_scanRows {V : Type} (scope : Scope)
    (pgs : List (List (StudentModule V))) :
    scanPages scope pgs = scanRows scope pgs.flatten := by
  induction pgs with
  | nil => rfl
  | cons p ps ih =>
    simp only [scanPages, List.flatten_cons, scanRows_append, ih]

theorem scanRows_ok {V : Type} (scope : Scope) (l : List (StudentModule V))
    (h : ∀ m ∈ l, m.state ≠ none) :
    scanRows scope l = Except.ok (l.filterMap (rowView scope)) := by
  induction l with
  | nil => rfl
  | cons m rest ih =>
    have hrest : ∀ x ∈ rest, x.state ≠ none :=
      fun x hx => h x (List.mem_cons_of_mem _ hx)
    cases hst : m.state with
    | none => exact absurd hst (h m (List.mem_cons_self _ _))
    | some d =>
      by_cases hd : d.isEmpty = true
      · simp [scanRows, rowView, hst, hd, ih hrest]
      · simp [scanRows, rowView, hst, hd, ih hrest]

/-- C7: the paginated bulk scan `iter_all_for_course` yields exactly one
read-model per stored record with non-empty state for the selection — no
duplicates, no omissions, in row order — for any page size `per > 0` and any
store whose selected rows all carry a (possibly tombstoned) serialized state,
when no concurrent writes occur during the scan (the store is fixed). -/
theorem C7_course_scan_complete {V : Type} (course_key : String)
    (block_type : Option String) (per : Nat)
    (modules : List (StudentModule V)) (hper : 0 < per)
    (hnn : ∀ m ∈ courseResults course_key block_type modules, m.state ≠ none) :
    iter_all_for_course course_key block_type Scope.user_state per modules =
      Except.ok ((courseResults course_key block_type modules).filterMap
        (rowView Scope.user_state)) := by
  have hgate : ¬(Scope.user_state ≠ Scope.user_state) := fun h => h rfl
  rw [iter_all_for_course, if_neg hgate]
  rw [scanPages_eq_scanRows, pages_flatten per _ (Nat.pos_iff_ne_zero.mp hper),
    scanRows_ok _ _ hnn]

/-- C7 witness: three non-empty rows (and one tombstone) in one course with
page size 2 — each non-empty row is yielded exactly once. -/
theorem C7_course_scan_complete_witness :
    0 < 2 ∧
    iter_all_for_course "c1" none Scope.user_state 2
        [{ username := "u1", course_id := "c1",
           module_state_key := ⟨"c1", "b1", "problem"⟩, module_type := "problem",
           state := some [("a", (1 : Int))], modified := 1 },
         { username := "u2", course_id := "c1",
           module_state_key := ⟨"c1", "b1", "problem"⟩, module_type := "problem",
           state := some [], modified := 2 },
         { username := "u3", course_id := "c1",
           module_state_key := ⟨"c1", "b2", "problem"⟩, module_type := "problem",
           state := some [("b", (2 : Int))], modified := 3 },
         { username := "u4", course_id := "c1",
           module_state_key := ⟨"c1", "b2", "problem"⟩, module_type := "problem",
           state := some [("c", (3 : Int))], modified := 4 }] =
      Except.ok (List.filterMap (rowView Scope.user_state)
        (courseResults "c1" none
          [{ username := "u1", course_id := "c1",
             module_state_key := ⟨"c1", "b1", "problem"⟩, module_type := "problem",
             state := some [("a", (1 : Int))], modified := 1 },
           { username := "u2", course_id := "c1",
             module_state_key := ⟨"c1", "b1", "problem"⟩, module_type := "problem",
             state := some [], modified := 2 },
           { username := "u3", course_id := "c1",
             module_state_key := ⟨"c1", "b2", "problem"⟩, module_type := "problem",
             state := some [("b", (2 : Int))], modified := 3 },
           { username := "u4", course_id := "c1",
             module_state_key := ⟨"c1", "b2", "problem"⟩, module_type := "problem",
             state := some [("c", (3 : Int))], modified := 4 }])) :=
  ⟨by decide,
   C7_course_scan_complete "c1" none 2 _ (by decide) (by decide)⟩

/-- Every binding of `d` keyed `f` carries exactly the value `v`. -/
def KeyVal {V : Type} (d : Dict V) (f : String) (v : V) : Prop :=
  ∀ p ∈ d, p.1 = f → p = (f, v)

/-- Some binding of `d` is keyed `f`. -/
def HasKey {V : Type} (d : Dict V) (f : String) : Prop :=
  ∃ p ∈ d, p.1 = f

theorem keyVal_dinsert_self {V : Type} (d : Dict V) (f : String) (v : V) :
    KeyVal (dinsert d f v) f v := by
  intro p hp hpf
  unfold dinsert at hp
  by_cases hany : (d.any (fun q => q.1 == f)) = true
  · rw [if_pos hany] at hp
    obtain ⟨q, hq, hqp⟩ := List.mem_map.mp hp
    by_cases hqf : (q.1 == f) = true
    · rw [if_pos hqf] at hqp
      exact hqp.symm
    · rw [if_neg hqf] at hqp
      subst hqp
      exact absurd (beq_iff_eq.mpr hpf) hqf
  · rw [if_neg hany] at hp
    have hfalse : d.any (fun q => q.1 == f) = false := Bool.eq_false_iff.mpr hany
    rcases List.mem_append.mp hp with hq | hq
    · exact absurd (beq_iff_eq.mpr hpf) (List.any_eq_false.mp hfalse p hq)
    · simpa using hq

theorem keyVal_dinsert_other {V : Type} {d : Dict V} {f : String} {v : V}
    (g : String) (w : V) (hfg : f ≠ g) (h : KeyVal d f v) :
    KeyVal (dinsert d g w) f v := by
  intro p hp hpf
  unfold dinsert at hp
  by_cases hany : (d.any (fun q => q.1 == g)) = true
  · rw [if_pos hany] at hp
    obtain ⟨q, hq, hqp⟩ := List.mem_map.mp hp
    by_cases hqg : (q.1 == g) = true
    · rw [if_pos hqg] at hqp
      subst hqp
      exact absurd hpf (by simpa using hfg.symm)
    · rw [if_neg hqg] at hqp
      subst hqp
      exact h q hq hpf
  · rw [if_neg hany] at hp
    rcases List.mem_append.mp hp with hq | hq
    · exact h p hq hpf
    · have : p = (g, w) := by simpa using hq
      subst this
      exact absurd hpf hfg.symm

theorem hasKey_dinsert_self {V : Type} (d : Dict V) (f : String) (v : V) :
    HasKey (dinsert d f v) f := by
  unfold dinsert
  by_cases hany : (d.any (fun q => q.1 == f)) = true
  · rw [if_pos hany]
    obtain ⟨q, hq, hqf⟩ := List.any_eq_true.mp hany
    refine ⟨(f, v), List.mem_map.mpr ⟨q, hq, ?_⟩, rfl⟩
    rw [if_pos hqf]
  · rw [if_neg hany]
    exact ⟨(f, v), List.mem_append.mpr (Or.inr (List.mem_singleton.mpr rfl)), rfl⟩

theorem hasKey_dinsert_mono {V : Type} {d : Dict V} {f : String}
    (g : String) (w : V) (h : HasKey d f) : HasKey (dinsert d g w) f := by
  obtain ⟨p, hp, hpf⟩ := h
  unfold dinsert
  by_cases hany : (d.any (fun q => q.1 == g)) = true
  · rw [if_pos hany]
    by_cases hpg : (p.1 == g) = true
    · have hgf : g = f := (eq_of_beq hpg) ▸ hpf
      refine ⟨(g, w), List.mem_map.mpr ⟨p, hp, ?_⟩, hgf⟩
      rw [if_pos hpg]
    · refine ⟨p, List.mem_map.mpr ⟨p, hp, ?_⟩, hpf⟩
      rw [if_neg hpg]
  · rw [if_neg hany]
    exact ⟨p, List.mem_append.mpr (Or.inl hp), hpf⟩

theorem dinsert_eq_self {V : Type} {d : Dict V} {f : String} {v : V}
    (hmem : HasKey d f) (hkv : KeyVal d f v) : dinsert d f v = d := by
  obtain ⟨q, hq, hqf⟩ := hmem
  have hany : (d.any (fun p => p.1 == f)) = true :=
    List.any_eq_true.mpr ⟨q, hq, beq_iff_eq.mpr hqf⟩
  unfold dinsert
  rw [if_pos hany]
  conv_rhs => rw [← List.map_id d]
  apply List.map_congr_left
  intro p hp
  by_cases hpf : (p.1 == f) = true
  · rw [if_pos hpf]
    exact (hkv p hp (eq_of_beq hpf)).symm
  · rw [if_neg hpf]
    rfl

theorem keyVal_dictUpdate_not_mem {V : Type} (s : Dict V) :
    ∀ (d : Dict V) (f : String) (v : V), (∀ q ∈ s, q.1 ≠ f) → KeyVal d f v →
      KeyVal (dictUpdate d s) f v := by
  induction s with
  | nil => intro d f v _ h; exact h
  | cons q rest ih =>
    intro d f v hne h
    simp only [dictUpdate, List.foldl_cons]
    exact ih (dinsert d q.1 q.2) f v
      (fun r hr => hne r (List.mem_cons_of_mem _ hr))
      (keyVal_dinsert_other q.1 q.2
        (fun hf => hne q (List.mem_cons_self _ _) hf.symm) h)

theorem hasKey_dictUpdate_mono {V : Type} (s : Dict V) :
    ∀ (d : Dict V) (f : String), HasKey d f → HasKey (dictUpdate d s) f := by
  induction s with
  | nil => intro d f h; exact h
  | cons q rest ih =>
    intro d f h
    simp only [dictUpdate, List.foldl_cons]
    exact ih (dinsert d q.1 q.2) f (hasKey_dinsert_mono q.1 q.2 h)

theorem dictUpdate_keyVal {V : Type} (s : Dict V) :
    ∀ (d : Dict V), (s.map Prod.fst).Nodup →
      ∀ p ∈ s, KeyVal (dictUpdate d s) p.1 p.2 ∧ HasKey (dictUpdate d s) p.1 := by
  induction s with
  | nil => intro d _ p hp; cases hp
  | cons q rest ih =>
    intro d hnd p hp
    have hq_notin : ∀ r ∈ rest, r.1 ≠ q.1 := by
      intro r hr heq
      have : q.1 ∈ rest.map Prod.fst := List.mem_map.mpr ⟨r, hr, heq⟩
      exact (List.nodup_cons.mp (by simpa using hnd)).1 this
    have hrest_nd : (rest.map Prod.fst).Nodup :=
      (List.nodup_cons.mp (by simpa using hnd)).2
    rcases List.mem_cons.mp hp with hpq | hpr
    · subst hpq
      simp only [dictUpdate, List.foldl_cons]
      constructor
      · exact keyVal_dictUpdate_not_mem rest (dinsert d p.1 p.2) p.1 p.2
          hq_notin (keyVal_dinsert_self d p.1 p.2)
      · exact hasKey_dictUpdate_mono rest (dinsert d p.1 p.2) p.1
          (hasKey_dinsert_self d p.1 p.2)
    · simp only [dictUpdate, List.foldl_cons]
      exact ih (dinsert d q.1 q.2) hrest_nd p hpr

theorem dictUpdate_fixed {V : Type} (s : Dict V) :
    ∀ (d : Dict V), (∀ p ∈ s, KeyVal d p.1 p.2 ∧ HasKey d p.1) →
      dictUpdate d s = d := by
  induction s with
  | nil => intro d _; rfl
  | cons q rest ih =>
    intro d h
    have hq := h q (List.mem_cons_self _ _)
    simp only [dictUpdate, List.foldl_cons]
    rw [show dinsert d q.1 q.2 = d from dinsert_eq_self hq.2 hq.1]
    exact ih d (fun p hp => h p (List.mem_cons_of_mem _ hp))

theorem dictUpdate_idempotent {V : Type} (s d : Dict V)
    (hnd : (s.map Prod.fst).Nodup) :
    dictUpdate (dictUpdate d s) s = dictUpdate d s :=
  dictUpdate_fixed s (dictUpdate d s) (dictUpdate_keyVal s d hnd)

theorem dictUpdate_self {V : Type} (s : Dict V)
    (hnd : (s.map Prod.fst).Nodup) : dictUpdate s s = s := by
  apply dictUpdate_fixed
  intro p hp
  constructor
  · intro r hr hrf
    have := List.inj_on_of_nodup_map hnd hr hp
    exact this hrf
  · exact ⟨p, hp, rfl⟩

theorem matchesRow_true_iff {V : Type} {m : StudentModule V} {u : String}
    {k : UsageKey} (hm : matchesRow m u k = true) :
    m.username = u ∧ m.course_id = k.context ∧ m.module_state_key = k := by
  simp only [matchesRow, Bool.and_eq_true, beq_iff_eq] at hm
  exact ⟨hm.1.1, hm.1.2, hm.2⟩

theorem saveRow_eq_map_matches {V : Type} (modules : List (StudentModule V))
    (m : StudentModule V) {u : String} {k : UsageKey}
    (st : Option (Dict V)) (now : Nat) (hm : matchesRow m u k = true) :
    saveRow modules m st now = modules.map (fun x =>
      if matchesRow x u k then { x with state := st, modified := now } else x) := by
  obtain ⟨hu, hc, hk⟩ := matchesRow_true_iff hm
  unfold saveRow
  apply List.map_congr_left
  intro x _
  rw [hu, hc, hk]
  rfl

theorem findModule_saveRow {V : Type} {modules : List (StudentModule V)}
    {m : StudentModule V} {u : String} {k : UsageKey}
    (st : Option (Dict V)) (now : Nat)
    (hfind : findModule modules u k = some m) :
    findModule (saveRow modules m st now) u k =
      some { m with state := st, modified := now } := by
  have hm : matchesRow m u k = true :=
    @List.find?_some _ (fun x => matchesRow x u k) m modules hfind
  rw [saveRow_eq_map_matches modules m st now hm]
  unfold findModule
  rw [List.find?_map]
  have hcomp : ((fun x => matchesRow x u k) ∘ (fun x =>
      if matchesRow x u k then { x with state := st, modified := now } else x)) =
      fun x => matchesRow x u k := by
    funext x
    by_cases hx : matchesRow x u k = true
    · simp only [Function.comp, if_pos hx]
      rfl
    · simp only [Function.comp, if_neg hx]
  rw [hcomp]
  rw [show modules.find? (fun m => matchesRow m u k) = some m from hfind]
  simp [hm]

theorem set_one_notfound {V : Type} {modules : List (StudentModule V)}
    {u : String} {k : UsageKey} (sched : UsageKey → WriteOutcome) (s : Dict V)
    (now : Nat) (hfind : findModule modules u k = none)
    (hok : sched k = WriteOutcome.ok) :
    set u k s Scope.user_state false sched now modules =
      Except.ok (modules ++ [newModule u k s now]) := by
  simp [set, set_many, set_many_pairs, hfind, hok]

theorem set_one_found {V : Type} {modules : List (StudentModule V)}
    {u : String} {k : UsageKey} (sched : UsageKey → WriteOutcome) (s : Dict V)
    (now : Nat) {m : StudentModule V}
    (hfind : findModule modules u k = some m)
    (hok : sched k = WriteOutcome.ok) :
    set u k s Scope.user_state false sched now modules =
      Except.ok (saveRow modules m (some (dictUpdate (m.state.getD []) s)) now) := by
  rw [set, set_many]
  simp only [ne_eq, not_true_eq_false, if_false, Bool.false_eq_true, ite_false]
  rw [set_many_pairs, hfind]
  cases hst : m.state with
  | none => simp [hok, set_many_pairs, hst]
  | some d => simp [hok, set_many_pairs, hst]

/-- C8: `set` is idempotent on stored fields: running `set(K, S)` twice in
succession leaves the same stored field mapping at K as running it once
(`S` has unique field names, as a Python dict's keys are). -/
theorem C8_set_idempotent {V : Type} (u : String) (k : UsageKey) (S : Dict V)
    (now1 now2 : Nat) (modules : List (StudentModule V))
    (hS : (S.map Prod.fst).Nodup) :
    ∃ m1 m2 : List (StudentModule V),
      set u k S Scope.user_state false noConflict now1 modules = Except.ok m1 ∧
      set u k S Scope.user_state false noConflict now2 m1 = Except.ok m2 ∧
      storedState m2 u k = storedState m1 u k := by
  cases hfind : findModule modules u k with
  | none =>
    have hno : ∀ m ∈ modules, matchesRow m u k = false := by
      intro m hm
      simpa using List.find?_eq_none.mp hfind m hm
    have hfind1 : findModule (modules ++ [newModule u k S now1]) u k =
        some (newModule u k S now1) := by
      rw [findModule_append _ hno]
      simp [findModule, List.find?_cons, matchesRow_newModule]
    refine ⟨modules ++ [newModule u k S now1],
      saveRow (modules ++ [newModule u k S now1]) (newModule u k S now1)
        (some (dictUpdate S S)) now2,
      set_one_notfound noConflict S now1 hfind rfl, ?_, ?_⟩
    · have h2 := set_one_found noConflict S now2 hfind1 rfl
      simpa [newModule] using h2
    · rw [storedState, storedState, findModule_saveRow _ _ hfind1, hfind1]
      simp [dictUpdate_self S hS, newModule]
  | some m =>
    have hfind1 :=
      findModule_saveRow (some (dictUpdate (m.state.getD []) S)) now1 hfind
    refine ⟨saveRow modules m (some (dictUpdate (m.state.getD []) S)) now1,
      saveRow (saveRow modules m (some (dictUpdate (m.state.getD []) S)) now1)
        { m with state := some (dictUpdate (m.state.getD []) S), modified := now1 }
        (some (dictUpdate (dictUpdate (m.state.getD []) S) S)) now2,
      set_one_found noConflict S now1 hfind rfl, ?_, ?_⟩
    · have h2 := set_one_found noConflict S now2 hfind1 rfl
      simpa using h2
    · rw [storedState, storedState, findModule_saveRow _ _ hfind1, hfind1]
      simp [dictUpdate_idempotent S _ hS]

/-- C8 witness: `S = {"a":1,"b":2}` set twice on a fresh key. -/
theorem C8_set_idempotent_witness :
    ∃ m1 m2 : List (StudentModule Int),
      set "u" ⟨"c1", "b1", "problem"⟩ [("a", (1 : Int)), ("b", (2 : Int))]
        Scope.user_state false noConflict 1 [] = Except.ok m1 ∧
      set "u" ⟨"c1", "b1", "problem"⟩ [("a", (1 : Int)), ("b", (2 : Int))]
        Scope.user_state false noConflict 2 m1 = Except.ok m2 ∧
      storedState m2 "u" ⟨"c1", "b1", "problem"⟩ =
        storedState m1 "u" ⟨"c1", "b1", "problem"⟩ :=
  C8_set_idempotent "u" ⟨"c1", "b1", "problem"⟩ [("a", (1 : Int)), ("b", (2 : Int))]
    1 2 [] (by decide)

end UserStateClient
